import Mathlib

/-!
Verification of the grade-reconciliation and late-penalty logic of the
grading repository (cornellGrading.py), shallowly embedded over the
rationals.  Scores and times are modelled as rationals; a submission time
is recorded, as in the source, as the signed quantity
(dueAt - submittedAt) in seconds (negative when the submission is late),
and a missing submission is the value none.  Strings are modelled with
the Lean String type, with character-list operations standing in for the
Python string methods.
-/

namespace Grading

/-- Identity resolution, email branch of selfGradingImport: the source
computes e.split(at-sign)[0], i.e. the substring before the first
at-sign, without changing case.  Taking the characters before the first
at-sign is exactly element 0 of the Python split. -/
def emailResolve (s : String) : String :=
  String.mk (s.toList.takeWhile (fun c => c ≠ '@'))

/-- Identity resolution, netid-column branch of selfGradingImport: the
source computes n.lower(), lower-casing the whole string without any
splitting. -/
def netidResolve (s : String) : String :=
  String.mk (s.toList.map Char.toLower)

/-- The identity resolver as the spec words it: if the string contains an
at-sign, take the substring before the first at-sign and lower-case it;
otherwise lower-case the string as-is.  Stated only for comparison with
the two branches found in the source. -/
def specResolveIdentity (s : String) : String :=
  if s.toList.contains '@' then
    String.mk ((s.toList.takeWhile (fun c => c ≠ '@')).map Char.toLower)
  else
    String.mk (s.toList.map Char.toLower)

/-- Pre-penalty base aggregation of selfGradingImport: the source computes
sum(base question scores) / 3.0 / count(base questions) * points
possible; the ordinal scale maximum 3 is hard-coded. -/
def baseTotal (totscore : ℚ) (base : List ℚ) : ℚ :=
  base.sum / 3 / (base.length : ℚ) * totscore

/-- Per-student late update of selfGradingImport (checkLate branch,
before the final array clamp).  subtimeSecs is (dueAt - submittedAt) in
seconds, none when there is no submission (NaN in the source); isLate is
the provider late flag.  The source zeroes missing submissions, subtracts
totscore * latePenalty when more than 300 seconds past due and flagged
late, and zeroes anything more than 300 + maxDaysLate * 86400 seconds
past due regardless of the flag. -/
def fixedLateUpdate (totscore latePenalty maxDaysLate : ℚ)
    (subtimeSecs : Option ℚ) (isLate : Bool) (score : ℚ) : ℚ :=
  match subtimeSecs with
  | none => 0
  | some td =>
    let s1 := if td < -5 * 60 ∧ isLate then score - totscore * latePenalty else score
    if td < -5 * 60 - maxDaysLate * 86400 then 0 else s1

/-- Final per-student score of selfGradingImport: when checkLate is true
the late update runs and the score array is then clamped below at zero
(the source sets scores[scores less than 0] = 0); when checkLate is false
the aggregated score stands untouched. -/
def selfGradingScore (checkLate : Bool) (totscore latePenalty maxDaysLate : ℚ)
    (subtimeSecs : Option ℚ) (isLate : Bool) (agg : ℚ) : ℚ :=
  if checkLate then
    max 0 (fixedLateUpdate totscore latePenalty maxDaysLate subtimeSecs isLate agg)
  else agg

/-- Per-student linear-time late penalty of linearTimePenalty, defined
for students with a submission.  The source sets tdelta to 0 when the
late flag is clear, otherwise to the absolute lateness in days; a tdelta
beyond maxDaysLate yields the full points possible as penalty, otherwise
the penalty grows linearly in tdelta. -/
def linearTimePenalty (totscore latePenalty maxDaysLate : ℚ)
    (late : Bool) (latenessSecs : ℚ) : ℚ :=
  let tdelta := if late then |latenessSecs| / 86400 else 0
  if maxDaysLate < tdelta then totscore
  else tdelta / maxDaysLate * totscore * latePenalty

/-- The submission-processing loop of importNewQuizSelfAssessment.  Each
self-assessment submission is a pair of an optional netid (none when the
submitting user is not on the roster, mirroring the user-id test in the
source) and an optional grade (none when sub.grade is None).  lates is
the association list of late penalties keyed by netid.  The source skips
off-roster users and missing grades, records netids that have no entry
in lates (submitted self-grading but not the assignment), and otherwise
appends the netid and the score grade - penalty. -/
def newQuizLoop (lates : List (String × ℚ)) :
    List (Option String × Option ℚ) → List String × List ℚ × List String →
      List String × List ℚ × List String
  | [], acc => acc
  | (uid, g) :: rest, (ns, ss, sna) =>
    match uid, g with
    | none, _ => newQuizLoop lates rest (ns, ss, sna)
    | some _, none => newQuizLoop lates rest (ns, ss, sna)
    | some n, some gr =>
      match List.lookup n lates with
      | none => newQuizLoop lates rest (ns, ss, sna ++ [n])
      | some p => newQuizLoop lates rest (ns ++ [n], ss ++ [gr - p], sna)

/-- Result of the importNewQuizSelfAssessment processing loop starting
from empty accumulators: the matched netids, their uploaded scores
(grade minus penalty, with no clamping in the source), and the netids
that submitted a self-assessment but not the assignment. -/
def importNewQuizScores (lates : List (String × ℚ))
    (subs : List (Option String × Option ℚ)) :
    List String × List ℚ × List String :=
  newQuizLoop lates subs ([], [], [])

/-- The report computed by importNewQuizSelfAssessment as
list(set(lates.keys()) - set(netids)): the keys of the late-penalty
dictionary minus the matched netids, as a finite set. -/
def submittedAssignmentNoScore (lates : List (String × ℚ))
    (subs : List (Option String × Option ℚ)) : Finset String :=
  (lates.map Prod.fst).toFinset \ (importNewQuizScores lates subs).1.toFinset

end Grading

namespace Grading

/-- Membership in an association list lookup: the lookup of a key
succeeds exactly when the key occurs among the first components. -/
theorem lookup_isSome_iff (l : List (String × ℚ)) (a : String) :
    (List.lookup a l).isSome ↔ a ∈ l.map Prod.fst := by
  induction l with
  | nil => simp
  | cons p t ih =>
    obtain ⟨k, v⟩ := p
    by_cases hak : a = k
    · subst hak
      simp [List.lookup]
    · simp [List.lookup, beq_false_of_ne hak, hak, ih]

/-- Characterisation of the matched netids produced by the
importNewQuizSelfAssessment loop: a netid is collected exactly when it
was already in the accumulator or some submission carries it with a
grade and it has a late-penalty entry. -/
theorem mem_newQuizLoop_netids (lates : List (String × ℚ))
    (subs : List (Option String × Option ℚ)) (ns : List String) (ss : List ℚ)
    (sna : List String) (h : String) :
    h ∈ (newQuizLoop lates subs (ns, ss, sna)).1 ↔
      h ∈ ns ∨ ∃ g : ℚ, (some h, some g) ∈ subs ∧ (List.lookup h lates).isSome := by
  induction subs generalizing ns ss sna with
  | nil => simp [newQuizLoop]
  | cons sub rest ih =>
    obtain ⟨uid, g⟩ := sub
    match uid, g with
    | none, g =>
      simp only [newQuizLoop, ih, List.mem_cons, Prod.mk.injEq]
      constructor
      · rintro (hns | ⟨g', hmem, hsome⟩)
        · exact Or.inl hns
        · exact Or.inr ⟨g', Or.inr hmem, hsome⟩
      · rintro (hns | ⟨g', (⟨hc, _⟩ | hmem), hsome⟩)
        · exact Or.inl hns
        · exact absurd hc (by simp)
        · exact Or.inr ⟨g', hmem, hsome⟩
    | some m, none =>
      simp only [newQuizLoop, ih, List.mem_cons, Prod.mk.injEq]
      constructor
      · rintro (hns | ⟨g', hmem, hsome⟩)
        · exact Or.inl hns
        · exact Or.inr ⟨g', Or.inr hmem, hsome⟩
      · rintro (hns | ⟨g', (⟨_, hc⟩ | hmem), hsome⟩)
        · exact Or.inl hns
        · exact absurd hc (by simp)
        · exact Or.inr ⟨g', hmem, hsome⟩
    | some m, some gr =>
      cases hl : List.lookup m lates with
      | none =>
        simp only [newQuizLoop, hl, ih, List.mem_cons, Prod.mk.injEq]
        constructor
        · rintro (hns | ⟨g', hmem, hsome⟩)
          · exact Or.inl hns
          · exact Or.inr ⟨g', Or.inr hmem, hsome⟩
        · rintro (hns | ⟨g', (⟨hm, hg⟩ | hmem), hsome⟩)
          · exact Or.inl hns
          · rw [Option.some_inj] at hm
            subst hm
            rw [hl] at hsome
            exact absurd hsome (by simp)
          · exact Or.inr ⟨g', hmem, hsome⟩
      | some p =>
        simp only [newQuizLoop, hl, ih, List.mem_append, List.mem_cons,
          List.mem_singleton, Prod.mk.injEq]
        constructor
        · rintro ((hns | hm) | ⟨g', hmem, hsome⟩)
          · exact Or.inl hns
          · rcases hm with hm | hc
            · subst hm
              exact Or.inr ⟨gr, Or.inl ⟨rfl, rfl⟩, by simp [hl]⟩
            · exact absurd hc (by simp)
          · exact Or.inr ⟨g', Or.inr hmem, hsome⟩
        · rintro (hns | ⟨g', (⟨hm, hg⟩ | hmem), hsome⟩)
          · exact Or.inl (Or.inl hns)
          · rw [Option.some_inj] at hm
            subst hm
            exact Or.inl (Or.inr (Or.inl rfl))
          · exact Or.inr ⟨g', hmem, hsome⟩

/-- Unfolding of the linear-time penalty for a submission carrying the
late flag. -/
theorem linearTimePenalty_late (tot lp maxD secs : ℚ) :
    linearTimePenalty tot lp maxD true secs =
      if maxD < |secs| / 86400 then tot else |secs| / 86400 / maxD * tot * lp := by
  simp [linearTimePenalty]

end Grading

namespace Grading

/-- Claim C1 (corrected), counterexample: under the linear-time policy of
importNewQuizSelfAssessment, a student with self-assessment grade 1 and a
late penalty of 5/2 points (exactly the penalty linearTimePenalty yields
at lateness 3 days with the default settings) receives the uploaded score
-3/2, which is negative: the claimed floor at 0 does not exist in this
path. -/
theorem newQuizScoreNegative :
    (importNewQuizScores [("a", linearTimePenalty 10 (1 / 4) 3 true (3 * 86400))]
        [(some "a", some 1)]).2.1 = [-(3 / 2)] ∧ (-(3 / 2) : ℚ) < 0 := by
  constructor
  · norm_num [importNewQuizScores, newQuizLoop, List.lookup, linearTimePenalty,
      abs_of_nonneg]
  · norm_num

/-- Claim C1 (amended): the floor at 0 holds in the fixed-fraction policy
of selfGradingImport (with checkLate true every final score is
nonnegative), but the linear-time path of importNewQuizSelfAssessment
uploads grade minus penalty with no clamp, as witnessed by a concrete
negative uploaded score. -/
theorem clampFixedOnly :
    (∀ (tot lp maxD : ℚ) (st : Option ℚ) (il : Bool) (agg : ℚ),
        0 ≤ selfGradingScore true tot lp maxD st il agg) ∧
    (importNewQuizScores [("b", (5 / 2 : ℚ))] [(some "b", some 1)]).2.1 = [-(3 / 2)] := by
  constructor
  · intro tot lp maxD st il agg
    simp only [selfGradingScore, if_pos rfl]
    exact le_max_left 0 _
  · norm_num [importNewQuizScores, newQuizLoop, List.lookup]

/-- Claim C2 (corrected), counterexample: the email branch of the
resolver maps Jdoe@cornell.edu to Jdoe, which is neither the lower-cased
handle jdoe produced by the netid branch nor the value demanded by the
spec wording. -/
theorem resolverNotLowerCased :
    emailResolve "Jdoe@cornell.edu" = "Jdoe" ∧
    emailResolve "Jdoe@cornell.edu" ≠ netidResolve "jdoe" ∧
    emailResolve "Jdoe@cornell.edu" ≠ specResolveIdentity "Jdoe@cornell.edu" := by
  decide

/-- Claim C2 (amended): the source has two branches rather than one
combined rule.  The spec rule equals the email branch followed by
lower-casing when the string contains an at-sign and equals the netid
branch otherwise; the email branch strips the domain but keeps case, so
Jdoe@cornell.edu resolves to Jdoe, while an already lower-case email such
as jdoe@cornell.edu does resolve to the same handle as jdoe. -/
theorem resolverBranches :
    (∀ s : String,
      specResolveIdentity s =
        if s.toList.contains '@' then
          String.mk ((emailResolve s).toList.map Char.toLower)
        else netidResolve s) ∧
    emailResolve "jdoe@cornell.edu" = netidResolve "jdoe" ∧
    emailResolve "Jdoe@cornell.edu" = "Jdoe" ∧
    netidResolve "Jdoe@cornell.edu" = "jdoe@cornell.edu" := by
  refine ⟨fun s => ?_, by decide, by decide, by decide⟩
  simp only [specResolveIdentity, emailResolve, netidResolve]
  rfl

/-- Claim C3 (corrected), counterexample: a submission 3 days and 60
seconds past the due date is later than dueAt plus maxDaysLate = 3 days,
yet with aggregated score 10 and the default settings the fixed policy
yields 15/2, not 0, because the zeroing threshold in the source also
includes the 300 second grace offset. -/
theorem fixedNotZeroJustBeyondMaxDays :
    ((-(3 * 86400 + 60) : ℚ) < -(3 * 86400)) ∧
    selfGradingScore true 10 (1 / 4) 3 (some (-(3 * 86400 + 60))) true 10 = 15 / 2 ∧
    (15 / 2 : ℚ) ≠ 0 := by
  refine ⟨by norm_num, ?_, by norm_num⟩
  norm_num [selfGradingScore, fixedLateUpdate]

/-- Claim C3 (amended): under the fixed-fraction policy with checkLate
true, every matched student whose submission is later than dueAt plus 5
minutes plus maxDaysLate days receives final score 0, whatever the
aggregated score and the late flag were. -/
theorem fixedZeroBeyondGraceWindow (tot lp maxD agg td : ℚ) (il : Bool)
    (h : td < -5 * 60 - maxD * 86400) :
    selfGradingScore true tot lp maxD (some td) il agg = 0 := by
  simp only [selfGradingScore, if_pos rfl, fixedLateUpdate]
  rw [if_pos h]
  simp

/-- Witness for the amended claim C3 at a concrete input. -/
theorem fixedZeroBeyondGraceWindow_w :
    ((-259501 : ℚ) < -5 * 60 - 3 * 86400) ∧
      selfGradingScore true 10 (1 / 4) 3 (some (-259501)) true 10 = 0 :=
  ⟨by norm_num, fixedZeroBeyondGraceWindow 10 (1 / 4) 3 10 (-259501) true (by norm_num)⟩

/-- Claim C4 (corrected), counterexample: under the linear-time policy a
flagged submission 6 days late with maxDaysLate = 3 is assessed the full
10 points possible as penalty, not the clamped fraction 10 * (1/4). -/
theorem linearPenaltyFullScoreNotFraction :
    linearTimePenalty 10 (1 / 4) 3 true (6 * 86400) = 10 ∧
    (10 : ℚ) ≠ 10 * (1 / 4) := by
  constructor
  · norm_num [linearTimePenalty, abs_of_nonneg]
  · norm_num

/-- Claim C4 (amended): for a flagged submission, lateness strictly
beyond maxDaysLate yields the full points possible as penalty, while
lateness of exactly maxDaysLate days yields the clamped fractional
penalty pointsPossible * latePenaltyFraction. -/
theorem linearPenaltyBeyondMax (tot lp maxD secs : ℚ) (h0 : 0 < maxD)
    (hbeyond : maxD * 86400 < |secs|) :
    linearTimePenalty tot lp maxD true secs = tot ∧
    linearTimePenalty tot lp maxD true (maxD * 86400) = tot * lp := by
  constructor
  · rw [linearTimePenalty_late, if_pos]
    rw [lt_div_iff₀ (by norm_num : (0:ℚ) < 86400)]
    exact hbeyond
  · rw [linearTimePenalty_late,
      abs_of_nonneg (by positivity : (0:ℚ) ≤ maxD * 86400),
      mul_div_cancel_right₀ _ (by norm_num : (86400:ℚ) ≠ 0),
      if_neg (lt_irrefl maxD), div_self (ne_of_gt h0), one_mul]

/-- Witness for the amended claim C4 at a concrete input. -/
theorem linearPenaltyBeyondMax_w :
    ((0 : ℚ) < 3 ∧ (3 : ℚ) * 86400 < |(6 * 86400 : ℚ)|) ∧
      (linearTimePenalty 10 (1 / 4) 3 true (6 * 86400) = 10 ∧
        linearTimePenalty 10 (1 / 4) 3 true (3 * 86400) = 10 * (1 / 4)) :=
  ⟨⟨by norm_num, by norm_num [abs_of_nonneg]⟩,
    linearPenaltyBeyondMax 10 (1 / 4) 3 (6 * 86400) (by norm_num)
      (by norm_num [abs_of_nonneg])⟩

end Grading

namespace Grading

/-- Claim C5 (corrected), counterexample: with latePenaltyFraction = 3/2,
outside the documented open interval (0,1), no failure occurs in the
source: the linear policy computes a 15 point penalty and the fixed
policy computes a clamped final score of 0, so scores are computed
rather than the run aborting. -/
theorem outOfRangeFractionStillScores :
    linearTimePenalty 10 (3 / 2) 3 true 259200 = 15 ∧
    selfGradingScore true 10 (3 / 2) 3 (some (-400)) true 8 = 0 := by
  constructor
  · norm_num [linearTimePenalty, abs_of_nonneg]
  · norm_num [selfGradingScore, fixedLateUpdate]

/-- Claim C5 (amended): neither policy validates latePenaltyFraction; for
every value of the fraction, in range or not, the same penalty formulas
apply and scores are produced. -/
theorem penaltyNoValidation (lp : ℚ) :
    linearTimePenalty 10 lp 3 true 259200 = 10 * lp ∧
    selfGradingScore true 10 lp 3 (some (-400)) true 8 = max 0 (8 - 10 * lp) := by
  constructor
  · norm_num [linearTimePenalty, abs_of_nonneg]
  · norm_num [selfGradingScore, fixedLateUpdate]

/-- Witness for the amended claim C5 at a concrete out-of-range
fraction. -/
theorem penaltyNoValidation_w :
    linearTimePenalty 10 (3 / 2) 3 true 259200 = 10 * (3 / 2) ∧
      selfGradingScore true 10 (3 / 2) 3 (some (-400)) true 8 =
        max 0 (8 - 10 * (3 / 2)) :=
  penaltyNoValidation (3 / 2)

/-- Claim C6 (corrected), counterexample: with roster handles a and b,
a late-penalty dictionary holding only a (so b never submitted the
assignment) and a single matched self-assessment for a, the roster
handle b has no matched raw score entry yet is absent from the report
computed by the source. -/
theorem submittedAssignmentNoScore_missesRosterStudent :
    ("b" ∈ (["a", "b"] : List String) ∧
      ¬ ∃ g : ℚ, (some "b", some g) ∈ ([(some "a", some (5 : ℚ))] :
        List (Option String × Option ℚ))) ∧
    "b" ∉ submittedAssignmentNoScore [("a", (5 : ℚ))] [(some "a", some (5 : ℚ))] := by
  refine ⟨⟨by simp, ?_⟩, ?_⟩
  · rintro ⟨g, hg⟩
    simp [Prod.ext_iff] at hg
  · simp [submittedAssignmentNoScore, importNewQuizScores, newQuizLoop, List.lookup]

/-- Claim C6 (amended): the report equals the set of netids holding an
assignment submission (the keys of the late-penalty dictionary) that
have no matched self-assessment entry; roster handles without an
assignment submission are never reported. -/
theorem submittedAssignmentNoScore_iff (lates : List (String × ℚ))
    (subs : List (Option String × Option ℚ)) (h : String) :
    h ∈ submittedAssignmentNoScore lates subs ↔
      h ∈ lates.map Prod.fst ∧ ¬ ∃ g : ℚ, (some h, some g) ∈ subs := by
  unfold submittedAssignmentNoScore importNewQuizScores
  rw [Finset.mem_sdiff, List.mem_toFinset, List.mem_toFinset,
    mem_newQuizLoop_netids]
  simp only [List.not_mem_nil, false_or, lookup_isSome_iff]
  constructor
  · rintro ⟨hk, hn⟩
    exact ⟨hk, fun ⟨g, hg⟩ => hn ⟨g, hg, hk⟩⟩
  · rintro ⟨hk, hn⟩
    exact ⟨hk, fun ⟨g, hg, _⟩ => hn ⟨g, hg⟩⟩

/-- Witness for the amended claim C6 at a concrete input. -/
theorem submittedAssignmentNoScore_iff_w :
    "a" ∈ submittedAssignmentNoScore [("a", (5 : ℚ))]
        ([] : List (Option String × Option ℚ)) ↔
      "a" ∈ ([("a", (5 : ℚ))].map Prod.fst) ∧
        ¬ ∃ g : ℚ, (some "a", some g) ∈ ([] : List (Option String × Option ℚ)) :=
  submittedAssignmentNoScore_iff [("a", (5 : ℚ))] [] "a"

/-- Claim C7 (confirmed): with checkLate true, a matched student with no
submission (submittedAt is None) receives a final score of exactly 0,
whatever the aggregated score, the late flag and the configuration. -/
theorem noSubmissionZero (tot lp maxD : ℚ) (il : Bool) (agg : ℚ) :
    selfGradingScore true tot lp maxD none il agg = 0 := by
  simp [selfGradingScore, fixedLateUpdate]

/-- Witness for claim C7 at a concrete input. -/
theorem noSubmissionZero_w :
    selfGradingScore true 10 (1 / 4) 3 none true 7 = 0 :=
  noSubmissionZero 10 (1 / 4) 3 true 7

/-- Claim C8 (confirmed): under the fixed-fraction policy with the
default fraction 1/4, a matched student submitting exactly 5 minutes and
1 second past the due date who is flagged late receives the aggregated
score minus a quarter of the points possible, clamped below at 0, for
any maxDaysLate window of at least one second. -/
theorem fixedGracePlusOneSecond (tot maxD agg : ℚ) (h : 1 ≤ maxD * 86400) :
    selfGradingScore true tot (1 / 4) maxD (some (-301)) true agg =
      max 0 (agg - tot * (1 / 4)) := by
  have h2 : ¬ ((-301 : ℚ) < -5 * 60 - maxD * 86400) := by
    intro hc
    nlinarith
  simp only [selfGradingScore, if_pos rfl, fixedLateUpdate]
  rw [if_neg h2]
  norm_num

/-- Witness for claim C8 at a concrete input. -/
theorem fixedGracePlusOneSecond_w :
    ((1 : ℚ) ≤ 3 * 86400) ∧
      selfGradingScore true 10 (1 / 4) 3 (some (-301)) true 8 =
        max 0 (8 - 10 * (1 / 4)) :=
  ⟨by norm_num, fixedGracePlusOneSecond 10 3 8 (by norm_num)⟩

/-- Claim C9 (confirmed): for a student with at least one base component
the aggregated base total equals points possible times the sum of the
component values over the ordinal maximum 3, divided by the component
count; in particular base components 3, 3, 3 on the 0 to 3 scale with 10
points possible aggregate to exactly 10. -/
theorem baseTotalFormula (tot : ℚ) (base : List ℚ) (_h : base ≠ []) :
    baseTotal tot base = tot * (base.sum / 3) / (base.length : ℚ) ∧
    baseTotal 10 [3, 3, 3] = 10 := by
  constructor
  · unfold baseTotal
    ring
  · norm_num [baseTotal]

/-- Witness for claim C9 at a concrete input. -/
theorem baseTotalFormula_w :
    baseTotal 10 [3, 3, 3] =
        10 * (([3, 3, 3] : List ℚ).sum / 3) / (([3, 3, 3] : List ℚ).length : ℚ) ∧
      baseTotal 10 [3, 3, 3] = 10 :=
  baseTotalFormula 10 [3, 3, 3] (by simp)

/-- Claim C10 (confirmed): in the fixed-fraction policy the fractional
penalty is tied to the provider late flag, but the beyond-window zeroing
is not: a student whose late flag is cleared (whitelisted) is still
forced to 0 when more than 5 minutes plus maxDaysLate days past due,
and otherwise keeps the aggregated score with no subtraction. -/
theorem zeroingIgnoresLateFlag (tot lp maxD agg td td2 : ℚ)
    (h1 : td < -5 * 60 - maxD * 86400) (h2 : -5 * 60 - maxD * 86400 ≤ td2) :
    selfGradingScore true tot lp maxD (some td) false agg = 0 ∧
    selfGradingScore true tot lp maxD (some td2) false agg = max 0 agg := by
  constructor
  · simp only [selfGradingScore, if_pos rfl, fixedLateUpdate]
    rw [if_pos h1]
    simp
  · simp only [selfGradingScore, if_pos rfl, fixedLateUpdate]
    rw [if_neg (not_lt.mpr h2)]
    simp

/-- Witness for claim C10 at a concrete input. -/
theorem zeroingIgnoresLateFlag_w :
    ((-259501 : ℚ) < -5 * 60 - 3 * 86400 ∧
        (-5 * 60 - 3 * 86400 : ℚ) ≤ -259500) ∧
      (selfGradingScore true 10 (1 / 4) 3 (some (-259501)) false 10 = 0 ∧
        selfGradingScore true 10 (1 / 4) 3 (some (-259500)) false 10 = max 0 10) :=
  ⟨⟨by norm_num, by norm_num⟩,
    zeroingIgnoresLateFlag 10 (1 / 4) 3 10 (-259501) (-259500) (by norm_num)
      (by norm_num)⟩

end Grading
